import Mathlib

/-!
Shallow embedding of the frame-reassembly core of
`src/Code/Radar/Radar/radar_sensor/IWR6843.cpp`.

Bytes are modelled as natural numbers, byte buffers as lists, and the
serial transport as an explicit input: `none` models a failing
availability query (ioctl error), `some bytes` models a successful query
reporting exactly those bytes available to read.
-/

/-- The fixed 8-byte magic word from `IWR6843::findIndexesOfMagicWord`
(line 202 of the source). -/
def magicWord : List Nat := [0x02, 0x01, 0x04, 0x03, 0x06, 0x05, 0x08, 0x07]

/-- Modelled from the spec: the payload decoder (`SensorData` constructor,
declared outside the provided source) is an external collaborator which
converts the raw bytes of one complete frame into an opaque record. We
model it as a record keeping the raw frame bytes. -/
structure SensorData where
  raw : List Nat
deriving DecidableEq, Repr

/-- State owned by the reassembler: the accumulation byte buffer and the
decoded frame queue (fields `dataBuffer` and `decodedFrameBuffer` of class
`IWR6843`, declared in the header and mutated in the source file). -/
structure IWR6843 where
  dataBuffer : List Nat
  decodedFrameBuffer : List SensorData
deriving DecidableEq, Repr

/-- Scanning loop of `IWR6843::findIndexesOfMagicWord` (lines 200-213):
repeated `std::search` resuming one byte after each match is equivalent to
examining every position in ascending order and recording those where the
magic word occurs. `pos` is the absolute offset of the head of `l` in the
scanned buffer. -/
def findIndexesAux : List Nat → Nat → List Nat
  | [], _ => []
  | x :: xs, pos =>
    (if (x :: xs).take 8 = magicWord then [pos] else []) ++ findIndexesAux xs (pos + 1)

/-- `IWR6843::findIndexesOfMagicWord` (lines 200-213): all start positions
of the magic word in the data buffer, in ascending order. -/
def findIndexesOfMagicWord (buf : List Nat) : List Nat :=
  findIndexesAux buf 0

/-- `IWR6843::splitIntoSublistsByIndexes` (lines 216-232): for each pair of
consecutive indexes `(start, stop)` the source builds
`vector(dataBuffer.begin() + start, dataBuffer.begin() + stop - 1)`, i.e.
the element range `[start, stop - 1)`. -/
def splitIntoSublistsByIndexes (dataBuffer : List Nat) (indexes : List Nat) : List (List Nat) :=
  (List.range (indexes.length - 1)).map (fun i =>
    let start := indexes.getD i 0
    let stop := indexes.getD (i + 1) 0
    (dataBuffer.drop start).take (stop - 1 - start))

/-- `IWR6843::poll` (lines 38-92). The transport is modelled by the
argument: `none` means the availability query itself failed (return -1),
`some avail` means the query succeeded and `avail` are the available
bytes; the read then takes at most 1024 of them (the stack buffer bound).
Vector erasures become `take`/`drop`: erasing the prefix up to the first
index is `drop`, and erasing the range from the first to the last index of
the (possibly already shifted) buffer keeps the prefix before the first
index and the suffix from the last index on. -/
def poll (s : IWR6843) (t : Option (List Nat)) : Int × IWR6843 :=
  match t with
  | none => (-1, s)
  | some avail =>
    if avail.length < 1 then (0, s)
    else
      let chunk := avail.take 1024
      let buf1 := s.dataBuffer ++ chunk
      let indexes := findIndexesOfMagicWord buf1
      if indexes.length < 2 then (0, { s with dataBuffer := buf1 })
      else
        let i0 := indexes.headD 0
        let ik := indexes.getLastD 0
        let buf2 := if i0 ≠ 0 then buf1.drop i0 else buf1
        let sublists := splitIntoSublistsByIndexes buf2 indexes
        let newQueue := s.decodedFrameBuffer ++ sublists.map SensorData.mk
        let buf3 := buf2.take i0 ++ buf2.drop ik
        ((sublists.length : Int), { dataBuffer := buf3, decodedFrameBuffer := newQueue })

/-- `IWR6843::getDecodedFrameBuffer` (lines 94-97). -/
def getDecodedFrameBuffer (s : IWR6843) : List SensorData :=
  s.decodedFrameBuffer

/-- `IWR6843::getDecodedFramesFromTop` (lines 99-109): copy the first
`num` queue entries; when `del` is set, also erase them from the queue. -/
def getDecodedFramesFromTop (s : IWR6843) (num : Nat) (del : Bool) : List SensorData × IWR6843 :=
  let framesFromTop := s.decodedFrameBuffer.take num
  if del then
    (framesFromTop, { s with decodedFrameBuffer := s.decodedFrameBuffer.drop num })
  else
    (framesFromTop, s)

/-- Skip condition of `IWR6843::sendConfigFile` (line 156):
`configFileLine.empty() || configFileLine[0] == a percent sign`. -/
def skipLine (l : List Char) : Bool :=
  l.isEmpty || l.headD ' ' == '%'

/-- Substring test modelling `std::string::find(needle) != npos`. -/
def containsSub (needle : List Char) : List Char → Bool
  | [] => needle.isEmpty
  | x :: xs => List.take needle.length (x :: xs) == needle || containsSub needle xs

/-- Acknowledgement test of `IWR6843::sendConfigFile` (line 168): the
accumulated response contains "Done" or "Skipped". -/
def doneOrSkipped (resp : List Char) : Bool :=
  containsSub "Done".toList resp || containsSub "Skipped".toList resp

/-- One interaction with the config serial port inside the
acknowledgement wait loop of `sendConfigFile`: either the availability
query fails (line 175), or some bytes are available and read (an empty
list models an availability of zero, line 181). -/
inductive ReadEvent where
  | ioErr : ReadEvent
  | bytes : List Char → ReadEvent
deriving DecidableEq, Repr

/-- The do-while acknowledgement loop of `IWR6843::sendConfigFile`
(lines 165-193): the response is checked before each read; an ioctl
failure aborts with an error; otherwise up to 1024 read bytes are
appended to the response and the loop continues. Exhausting the event
list without an acknowledgement models waiting forever and is treated as
no acknowledgement. Returns the unconsumed events on success. -/
def awaitAck : List ReadEvent → List Char → Option (List ReadEvent)
  | [], resp => if doneOrSkipped resp then some [] else none
  | e :: rest, resp =>
    if doneOrSkipped resp then some (e :: rest)
    else
      match e with
      | ReadEvent.ioErr => none
      | ReadEvent.bytes bs => awaitAck rest (resp ++ bs.take 1024)

/-- `IWR6843::sendConfigFile` (lines 145-197) over an already line-split
script. Returns the status code and the trace of lines written to the
transport (each line is written as its raw bytes, line 162). Blank lines
and comment lines are skipped without touching the transport; every other
line is written and then the acknowledgement loop runs before the next
line is handled. -/
def sendConfigFile : List (List Char) → List ReadEvent → Int × List (List Char)
  | [], _ => (1, [])
  | l :: rest, evs =>
    if skipLine l then sendConfigFile rest evs
    else
      match awaitAck evs [] with
      | none => (-1, [l])
      | some evs2 =>
        let r := sendConfigFile rest evs2
        (r.1, l :: r.2)

/-- Fold `poll` over a sequence of successful transport reads, summing the
returned frame counts. -/
def pollMany : IWR6843 → List (List Nat) → Int × IWR6843
  | s, [] => (0, s)
  | s, c :: cs =>
    let r := poll s (some c)
    let rest := pollMany r.2 cs
    (r.1 + rest.1, rest.2)

/-- Concatenation of the raw bytes of all frames in the decoded frame
queue. -/
def framesBytes (s : IWR6843) : List Nat :=
  (s.decodedFrameBuffer.map SensorData.raw).flatten

/-- Payload bytes used by the concrete scenarios. -/
def payloadA : List Nat := [10, 11, 12, 13, 14]

/-- Payload bytes used by the concrete scenarios. -/
def payloadB : List Nat := [20, 21, 22, 23, 24]

/-- Input for the fragmentation counterexample: one leading garbage byte,
then three magic words delimiting two frames. -/
def c1input : List Nat := [0] ++ magicWord ++ payloadA ++ magicWord ++ payloadB ++ magicWord

/-- A buffer with two magic words separated by one payload byte. -/
def c2buf : List Nat := magicWord ++ [9] ++ magicWord

/-- Input with nine bytes of leading garbage, one complete frame and a
one-byte trailing remainder after the last magic word. -/
def c3input : List Nat := [0, 0, 0, 0, 0, 0, 0, 0, 0] ++ magicWord ++ payloadA ++ magicWord ++ [99]

/-- The input of the spec scenario: three bytes of garbage, then
MARKER + PAYLOAD_A + MARKER + PAYLOAD_B. -/
def c4input : List Nat := [170, 187, 204] ++ magicWord ++ payloadA ++ magicWord ++ payloadB

/-- Claim C1: fragmentation invariance fails on the code. Feeding
`c1input` in one poll and feeding it split after byte 27 produce the same
frame count but different concatenations of carved frame payload bytes,
because the prefix erase of leading garbage shifts the buffer while the
boundary indexes are reused unshifted. -/
theorem C1_fragmentation_counterexample :
    (pollMany ⟨[], []⟩ [c1input]).1 =
      (pollMany ⟨[], []⟩ [c1input.take 27, c1input.drop 27]).1 ∧
    framesBytes (pollMany ⟨[], []⟩ [c1input]).2 ≠
      framesBytes (pollMany ⟨[], []⟩ [c1input.take 27, c1input.drop 27]).2 := by
  decide

/-- Claim C2: the carving is off by one. On `c2buf` the locator returns
boundary indexes 0 and 9, yet the emitted sublist is the span `[0, 8)`
(the first 8 bytes), not the claimed span `[0, 9)`: the source builds the
range up to `begin + stop - 1`, dropping the final byte of every frame. -/
theorem C2_split_counterexample :
    findIndexesOfMagicWord c2buf = [0, 9] ∧
    splitIntoSublistsByIndexes c2buf [0, 9] = [c2buf.take 8] ∧
    c2buf.take 8 ≠ c2buf.take 9 := by
  decide

/-- Claim C3: retention fails when the leading garbage is longer than the
magic word. On `c3input` the last boundary index is 22 and the bytes from
it onward are `magicWord ++ [99]`, but after a poll carving one frame the
buffer holds `magicWord ++ [10]`: a payload byte of the carved frame is
kept and the trailing byte 99 is lost, because the erase range uses the
stale indexes on the already shifted buffer. -/
theorem C3_retention_counterexample :
    (poll ⟨[], []⟩ (some c3input)).1 = 1 ∧
    (findIndexesOfMagicWord c3input).getLastD 0 = 22 ∧
    c3input.drop 22 = magicWord ++ [99] ∧
    (poll ⟨[], []⟩ (some c3input)).2.dataBuffer = magicWord ++ [10] ∧
    magicWord ++ [10] ≠ magicWord ++ [99] := by
  decide

/-- Claim C4: the scenario fails on the code. Feeding
GARBAGE(3) + MARKER + PAYLOAD_A + MARKER + PAYLOAD_B in one poll does
return 1 and does retain MARKER + PAYLOAD_B in the buffer, but the single
enqueued frame is a 12-byte window shifted by the garbage length, not
MARKER + PAYLOAD_A. -/
theorem C4_scenario_counterexample :
    (poll ⟨[], []⟩ (some c4input)).1 = 1 ∧
    (poll ⟨[], []⟩ (some c4input)).2.dataBuffer = magicWord ++ payloadB ∧
    (poll ⟨[], []⟩ (some c4input)).2.decodedFrameBuffer =
      [SensorData.mk [3, 6, 5, 8, 7, 10, 11, 12, 13, 14, 2, 1]] ∧
    SensorData.mk [3, 6, 5, 8, 7, 10, 11, 12, 13, 14, 2, 1] ≠
      SensorData.mk (magicWord ++ payloadA) := by
  decide

/-- Claim C7: polling when the transport reports zero available bytes
returns 0 and leaves the whole state (byte buffer and decoded frame
queue) unchanged. -/
theorem C7_idle_noop (s : IWR6843) : poll s (some []) = (0, s) := by
  simp [poll]

/-- Claim C10: when the availability query fails, poll returns -1 before
reading anything and leaves the byte buffer and the decoded frame queue
exactly as they were. -/
theorem C10_transport_error_noop (s : IWR6843) : poll s none = (-1, s) := rfl

/-- Membership characterization of the scanning loop: a position is
recorded exactly when it is at or past the current offset and the magic
word starts there. -/
lemma mem_findIndexesAux (l : List Nat) :
    ∀ (pos p : Nat), p ∈ findIndexesAux l pos ↔ pos ≤ p ∧ (l.drop (p - pos)).take 8 = magicWord := by
  induction l with
  | nil =>
    intro pos p
    simp [findIndexesAux, magicWord]
  | cons x xs ih =>
    intro pos p
    simp only [findIndexesAux, List.mem_append]
    by_cases hc : (x :: xs).take 8 = magicWord
    · rw [if_pos hc]
      simp only [List.mem_singleton, ih (pos + 1) p]
      constructor
      · intro h
        rcases h with h | ⟨hle, hm⟩
        · subst h
          refine ⟨Nat.le_refl _, ?_⟩
          rw [Nat.sub_self, List.drop_zero]
          exact hc
        · refine ⟨by omega, ?_⟩
          rw [show p - pos = (p - (pos + 1)) + 1 from by omega, List.drop_succ_cons]
          exact hm
      · rintro ⟨hle, hm⟩
        rcases Nat.eq_or_lt_of_le hle with heq | hlt
        · exact Or.inl heq.symm
        · refine Or.inr ⟨hlt, ?_⟩
          rw [show p - pos = (p - (pos + 1)) + 1 from by omega, List.drop_succ_cons] at hm
          exact hm
    · rw [if_neg hc]
      simp only [List.not_mem_nil, false_or, ih (pos + 1) p]
      constructor
      · rintro ⟨hle, hm⟩
        refine ⟨by omega, ?_⟩
        rw [show p - pos = (p - (pos + 1)) + 1 from by omega, List.drop_succ_cons]
        exact hm
      · rintro ⟨hle, hm⟩
        rcases Nat.eq_or_lt_of_le hle with heq | hlt
        · exfalso
          subst heq
          rw [Nat.sub_self, List.drop_zero] at hm
          exact hc hm
        · refine ⟨hlt, ?_⟩
          rw [show p - pos = (p - (pos + 1)) + 1 from by omega, List.drop_succ_cons] at hm
          exact hm

/-- The scanning loop returns a strictly ascending list of positions. -/
lemma sorted_findIndexesAux (l : List Nat) :
    ∀ pos : Nat, List.Sorted (· < ·) (findIndexesAux l pos) := by
  induction l with
  | nil =>
    intro pos
    simp [findIndexesAux]
  | cons x xs ih =>
    intro pos
    simp only [findIndexesAux]
    by_cases hc : (x :: xs).take 8 = magicWord
    · rw [if_pos hc, List.singleton_append, List.sorted_cons]
      refine ⟨?_, ih (pos + 1)⟩
      intro b hb
      rw [mem_findIndexesAux] at hb
      omega
    · rw [if_neg hc, List.nil_append]
      exact ih (pos + 1)

/-- Claim C5: the locator returns the strictly ascending sequence of all
positions at which the 8-byte magic word occurs in the buffer; in
particular a buffer with K occurrences yields exactly K indexes and a
buffer with none yields the empty sequence. -/
theorem C5_locator_correct (buf : List Nat) :
    List.Sorted (· < ·) (findIndexesOfMagicWord buf) ∧
    ∀ p : Nat, p ∈ findIndexesOfMagicWord buf ↔ (buf.drop p).take 8 = magicWord := by
  refine ⟨sorted_findIndexesAux buf 0, fun p => ?_⟩
  rw [findIndexesOfMagicWord, mem_findIndexesAux]
  simp

/-- Claim C6: when the buffer after appending the read bytes holds fewer
than two boundary indexes, poll returns 0, nothing is erased (pre-existing
and appended bytes are both retained unchanged) and no frame is enqueued. -/
theorem C6_incomplete_frame_retention (s : IWR6843) (avail : List Nat)
    (h1 : 0 < avail.length)
    (h2 : (findIndexesOfMagicWord (s.dataBuffer ++ avail.take 1024)).length < 2) :
    poll s (some avail) = (0, { s with dataBuffer := s.dataBuffer ++ avail.take 1024 }) := by
  have hnz : ¬ avail.length < 1 := by omega
  simp [poll, hnz, h2]

/-- Witness for C6 at a concrete state and input. -/
theorem C6_incomplete_frame_retention_witness :
    0 < [(5 : Nat)].length ∧
    (findIndexesOfMagicWord ((⟨[], []⟩ : IWR6843).dataBuffer ++ [(5 : Nat)].take 1024)).length < 2 ∧
    poll (⟨[], []⟩ : IWR6843) (some [(5 : Nat)]) = (0, (⟨[5], []⟩ : IWR6843)) :=
  ⟨by decide, by decide, C6_incomplete_frame_retention ⟨[], []⟩ [5] (by decide) (by decide)⟩

/-- Claim C8: for n within the queue length, takeFront with removal
returns the first n entries in order, a subsequent peek returns the
original sequence without its first n elements, and takeFront without
removal returns the same first n entries leaving the state unchanged. -/
theorem C8_queue_fifo (s : IWR6843) (n : Nat)
    (h : n ≤ (getDecodedFrameBuffer s).length) :
    (getDecodedFramesFromTop s n true).1 = (getDecodedFrameBuffer s).take n ∧
    ((getDecodedFramesFromTop s n true).1).length = n ∧
    getDecodedFrameBuffer (getDecodedFramesFromTop s n true).2 = (getDecodedFrameBuffer s).drop n ∧
    (getDecodedFramesFromTop s n false).1 = (getDecodedFrameBuffer s).take n ∧
    (getDecodedFramesFromTop s n false).2 = s := by
  simp [getDecodedFramesFromTop, getDecodedFrameBuffer] at h ⊢
  omega

/-- Witness for C8 on a two-frame queue with n = 1. -/
theorem C8_queue_fifo_witness :
    1 ≤ (getDecodedFrameBuffer ⟨[], [⟨[1]⟩, ⟨[2]⟩]⟩).length ∧
    ((getDecodedFramesFromTop ⟨[], [⟨[1]⟩, ⟨[2]⟩]⟩ 1 true).1 =
        (getDecodedFrameBuffer ⟨[], [⟨[1]⟩, ⟨[2]⟩]⟩).take 1 ∧
      ((getDecodedFramesFromTop ⟨[], [⟨[1]⟩, ⟨[2]⟩]⟩ 1 true).1).length = 1 ∧
      getDecodedFrameBuffer (getDecodedFramesFromTop ⟨[], [⟨[1]⟩, ⟨[2]⟩]⟩ 1 true).2 =
        (getDecodedFrameBuffer ⟨[], [⟨[1]⟩, ⟨[2]⟩]⟩).drop 1 ∧
      (getDecodedFramesFromTop ⟨[], [⟨[1]⟩, ⟨[2]⟩]⟩ 1 false).1 =
        (getDecodedFrameBuffer ⟨[], [⟨[1]⟩, ⟨[2]⟩]⟩).take 1 ∧
      (getDecodedFramesFromTop ⟨[], [⟨[1]⟩, ⟨[2]⟩]⟩ 1 false).2 = ⟨[], [⟨[1]⟩, ⟨[2]⟩]⟩) :=
  ⟨by decide, C8_queue_fifo ⟨[], [⟨[1]⟩, ⟨[2]⟩]⟩ 1 (by decide)⟩

/-- Claim C9: whenever the upload completes successfully, the trace of
lines written to the transport is exactly the subsequence of script lines
that are non-empty and do not begin with the comment marker, in file
order; blank and comment lines are never written, and each written line
is followed by the acknowledgement wait before the next one is handled. -/
theorem C9_config_upload_filter (lines : List (List Char)) (evs : List ReadEvent)
    (h : (sendConfigFile lines evs).1 = 1) :
    (sendConfigFile lines evs).2 = lines.filter (fun l => !skipLine l) := by
  induction lines generalizing evs with
  | nil => simp [sendConfigFile]
  | cons l rest ih =>
    by_cases hskip : skipLine l
    · rw [List.filter_cons_of_neg (by simp [hskip])]
      have hrw : sendConfigFile (l :: rest) evs = sendConfigFile rest evs := by
        simp [sendConfigFile, hskip]
      rw [hrw] at h ⊢
      exact ih evs h
    · rw [List.filter_cons_of_pos (by simp [hskip])]
      cases hA : awaitAck evs [] with
      | none =>
        exfalso
        have hrw : sendConfigFile (l :: rest) evs = (-1, [l]) := by
          simp [sendConfigFile, hskip, hA]
        rw [hrw] at h
        have h2 : (-1 : Int) = 1 := h
        exact absurd h2 (by decide)
      | some evs2 =>
        have hrw : sendConfigFile (l :: rest) evs =
            ((sendConfigFile rest evs2).1, l :: (sendConfigFile rest evs2).2) := by
          simp [sendConfigFile, hskip, hA]
        rw [hrw] at h ⊢
        simp only [List.cons.injEq, true_and]
        exact ih evs2 h

/-- Witness for C9: a script with a comment line, a blank line and one
command line, acknowledged by a single "Done" response. -/
theorem C9_config_upload_filter_witness :
    (sendConfigFile [['%', 'c'], [], ['a', 'b']] [ReadEvent.bytes "Done".toList]).1 = 1 ∧
    (sendConfigFile [['%', 'c'], [], ['a', 'b']] [ReadEvent.bytes "Done".toList]).2 =
      [['%', 'c'], [], ['a', 'b']].filter (fun l => !skipLine l) :=
  ⟨by decide, C9_config_upload_filter [['%', 'c'], [], ['a', 'b']]
    [ReadEvent.bytes "Done".toList] (by decide)⟩
